import Mathlib

/-!
Verification development for the seating-tracker interactive venue-map viewer
(`PathfindingVisualization` component).  The component is shallowly embedded:
coordinates and zoom levels are modelled as rationals (the source performs
plain JavaScript floating-point arithmetic on them; all the properties proved
here are exact algebraic identities and inequalities that hold over any
ordered field), DOM state becomes explicit state records, and React effects
become explicit state-transition functions.

Coordinate convention: all handler functions in the source first translate
event client coordinates into canvas-local coordinates by subtracting the
canvas bounding-rect origin.  We work in canvas-local coordinates throughout,
i.e. the bounding rect is at the origin; this is an additive reparameterisation
that all the properties are invariant under.
-/

namespace SeatingTracker

/-! ## JavaScript value model for the seat-id props

`seatIds` entries / `seatId` can be arbitrary JS values at the boundary; the
component only distinguishes finite numbers, `NaN`, and everything else
(`typeof s === "number" && !Number.isNaN(s)`).  Note `typeof NaN === "number"`
is true in JS, so `NaN` is a numeric value rejected only by the `isNaN` test. -/
inductive JSVal where
  | num (q : ℚ)
  | nan
  | other
deriving DecidableEq, Repr

/-- Model of `Math.trunc`: truncation toward zero. -/
def jsTrunc (q : ℚ) : ℤ := if 0 ≤ q then ⌊q⌋ else ⌈q⌉

/-- Model of `Array.from(new Set(xs))`: remove duplicates keeping the first occurrence
of each element, in order (JS `Set` iterates in insertion order and ignores
re-insertions). -/
def jsSetDedup : List ℤ → List ℤ
  | [] => []
  | a :: l => a :: (jsSetDedup l).filter (fun x => x ≠ a)

/-- The `selectedSeatIds` normalisation at the top of the component:
a non-empty `seatIds` array takes precedence (non-numbers and `NaN` dropped,
the rest truncated and de-duplicated); otherwise a numeric non-`NaN` `seatId`
gives a singleton; otherwise the selection is empty. -/
def selectedSeatIds (seatIds : Option (List JSVal)) (seatId : Option JSVal) : List ℤ :=
  match seatIds with
  | some l =>
    if 0 < l.length then
      jsSetDedup (l.filterMap fun v =>
        match v with
        | .num q => some (jsTrunc q)
        | _ => none)
    else
      match seatId with
      | some (.num q) => [jsTrunc q]
      | _ => []
  | none =>
    match seatId with
    | some (.num q) => [jsTrunc q]
    | _ => []

/-! ## Venue nodes and selection matching -/

/-- A venue-map node as supplied by the layout source:
`{id, x, y, type, label}`. -/
structure VenueNode where
  id : String
  x : ℚ
  y : ℚ
  type : String
  label : String
deriving DecidableEq, Repr

/-- The tri-state mode derived from the optional `isVip` prop:
`true → vip`, `false → regular`, `undefined → admin`. -/
inductive Mode where
  | vip
  | regular
  | admin
deriving DecidableEq, Repr

/-- Model of `isVip === true ? "vip" : isVip === false ? "regular" : "admin"`. -/
def modeOfIsVip : Option Bool → Mode
  | some true => .vip
  | some false => .regular
  | none => .admin

/-- The `allowedTypes` list of the seat-validation effect. -/
def allowedTypes : Mode → List String
  | .vip => ["vip-table"]
  | .regular => ["table"]
  | .admin => ["table", "vip-table"]

/-- Model of `label.match(/\d+/)?.[0]`: the first maximal run of decimal digits in the
label, if any (as a string, preserving leading zeros). -/
def firstDigitRunAux : List Char → Option (List Char)
  | [] => none
  | c :: cs =>
    if c.isDigit then some (c :: cs.takeWhile Char.isDigit)
    else firstDigitRunAux cs

def firstDigitRun (s : String) : Option String :=
  (firstDigitRunAux s.data).map List.asString

/-- Model of `seatIdSet = new Set(selectedSeatIds.map((id) => String(id)))`. -/
def seatIdStrings (sel : List ℤ) : List String := sel.map toString

/-- Model of `isSeatNodeSelected`: highlight predicate for one node. -/
def isSeatNodeSelected (mode : Mode) (sel : List ℤ) (node : VenueNode) : Bool :=
  match firstDigitRun node.label with
  | none => false
  | some tableNum =>
    if ¬ (tableNum ∈ seatIdStrings sel) then false
    else
      match mode with
      | .vip => node.type = "vip-table"
      | .regular => node.type = "table"
      | .admin => node.type = "table" ∨ node.type = "vip-table"

/-- The filter predicate of the seat-validation effect (structured as in the
source: allowed-type test first, then digit-run extraction, then membership). -/
def validationPred (mode : Mode) (sel : List ℤ) (node : VenueNode) : Bool :=
  if ¬ (node.type ∈ allowedTypes mode) then false
  else
    match firstDigitRun node.label with
    | none => false
    | some tableNum => tableNum ∈ seatIdStrings sel

/-- The seat-validation effect as an error-state transformer: it returns early
(leaving the previous error state untouched) when there is no selection or no
nodes; otherwise it sets a mode- and arity-dependent not-found message when no
node matches, and clears the error when at least one does. -/
def validateEffect (mode : Mode) (nodes : List VenueNode) (sel : List ℤ)
    (err : Option String) : Option String :=
  if sel.isEmpty ∨ nodes.isEmpty then err
  else if (nodes.filter (validationPred mode sel)).isEmpty then
    if sel.length = 1 then
      match mode with
      | .vip => some ("VIP table " ++ toString (sel.headD 0) ++ " not found")
      | .regular => some ("Table " ++ toString (sel.headD 0) ++ " not found")
      | .admin => some ("No VIP or regular table " ++ toString (sel.headD 0) ++ " found")
    else some "No matching tables found for selected seats"
  else none

/-! ## Viewport: zoom and pan -/

structure Viewport where
  zoom : ℚ
  panX : ℚ
  panY : ℚ
deriving DecidableEq, Repr

/-- Model of `clampZoom = (z) => Math.min(4, Math.max(0.5, z))`. -/
def clampZoom (z : ℚ) : ℚ := min 4 (max (1/2) z)

/-- Model of `zoomAtPoint(factor, x, y)` as a pure function of the previous viewport
(coordinates are canvas-local).  When the clamped target zoom equals the
previous zoom (`actualFactor === 1`) both zoom and pan are left untouched;
otherwise the pan is chosen so that the world point previously under `(x, y)`
stays under `(x, y)`. -/
def zoomAtPoint (factor x y : ℚ) (v : Viewport) : Viewport :=
  let targetZoom := clampZoom (v.zoom * factor)
  let actualFactor := targetZoom / v.zoom
  if actualFactor = 1 then v
  else
    let worldX := (x - v.panX) / v.zoom
    let worldY := (y - v.panY) / v.zoom
    { zoom := targetZoom, panX := x - worldX * targetZoom, panY := y - worldY * targetZoom }

/-- The screen position of a base-transform point under the current viewport,
per the coordinate convention used by the gesture math of the source
(`screen = world * zoom + pan`). -/
def screenPos (v : Viewport) (p : ℚ × ℚ) : ℚ × ℚ :=
  (p.1 * v.zoom + v.panX, p.2 * v.zoom + v.panY)

/-! ## Base (fit) transform of the draw effect -/

/-- Model of `Math.min(...xs)` over a non-empty spread (the draw effect returns early
when the node list is empty, so the empty default is never used). -/
def jsMin : List ℚ → ℚ
  | [] => 0
  | a :: l => l.foldl min a

/-- Model of `Math.max(...xs)` over a non-empty spread. -/
def jsMax : List ℚ → ℚ
  | [] => 0
  | a :: l => l.foldl max a

/-- The zoom-independent part of the draw-effect transform: content bounding
box expanded by the 40-unit margin, uniform `contentScale`, and the centered
node-space origin `centeredMin`. -/
structure BaseTransform where
  contentScale : ℚ
  centeredMinX : ℚ
  centeredMinY : ℚ
deriving DecidableEq, Repr

def baseTransform (nodes : List VenueNode) (cssWidth cssHeight : ℚ) : BaseTransform :=
  let minX := jsMin (nodes.map (·.x)) - 40
  let maxX := jsMax (nodes.map (·.x)) + 40
  let minY := jsMin (nodes.map (·.y)) - 40
  let maxY := jsMax (nodes.map (·.y)) + 40
  let contentWidth := maxX - minX
  let contentHeight := maxY - minY
  let contentScale := min (cssWidth / contentWidth) (cssHeight / contentHeight)
  let viewWidthWorld := cssWidth / contentScale
  let viewHeightWorld := cssHeight / contentScale
  let offsetXWorld := (viewWidthWorld - contentWidth) / 2
  let offsetYWorld := (viewHeightWorld - contentHeight) / 2
  { contentScale := contentScale
    centeredMinX := minX - offsetXWorld
    centeredMinY := minY - offsetYWorld }

/-- Model of `toCanvas` of the draw effect. -/
def toCanvas (bt : BaseTransform) (x y : ℚ) : ℚ × ℚ :=
  ((x - bt.centeredMinX) * bt.contentScale, (y - bt.centeredMinY) * bt.contentScale)

/-! ## Gesture state machine

The pointer/gesture bookkeeping of the component: the `pointersRef` JS `Map`
(insertion-ordered association list), pinch distance, drag owner, last drag
position, and last tap bookkeeping, together with the viewport and the pending
auto-center flag that several handlers clear.

Distances: the source stores `Math.hypot(dx, dy)` (the Euclidean distance).
Since `d ↦ d * d` is a strictly monotone bijection on the non-negative reals,
we store the squared distance instead, which is rational-valued; every
comparison the source performs on distances (`dist === 0` for truthiness and
early return, `dist < 30` for the tap radius) transfers exactly
(`dist = 0 ↔ distSq = 0`, `dist < 30 ↔ distSq < 900`).  The only genuine use
of the magnitude is the pinch zoom factor `dist / lastPinchDistance`
(the square root of the ratio of the stored squares), which is irrational in
general; the machine is therefore parameterised by an oracle
`pinchFactor : ℚ → ℚ → ℚ` mapping the pair (current squared distance,
previous squared distance) to the factor passed to `zoomAtPoint`.  Every
theorem below about pointer bookkeeping or flag clearing holds for all
oracles, in particular for the true square-root ratio. -/

/-- Model of `PAN_SPEED = 1.2`. -/
def PAN_SPEED : ℚ := 1.2

/-- Model of `WHEEL_ZOOM_IN = 1.08`. -/
def WHEEL_ZOOM_IN : ℚ := 1.08

/-- Model of `WHEEL_ZOOM_OUT = 0.92`. -/
def WHEEL_ZOOM_OUT : ℚ := 0.92

/-- Model of `DOUBLE_TAP_ZOOM = 1.15`. -/
def DOUBLE_TAP_ZOOM : ℚ := 1.15

/-- Squared Euclidean distance (`Math.hypot(q.1 - p.1, q.2 - p.2)` squared). -/
def distSq (p q : ℚ × ℚ) : ℚ :=
  (q.1 - p.1) * (q.1 - p.1) + (q.2 - p.2) * (q.2 - p.2)

/-- Model of `e.pointerType`. -/
inductive PType where
  | mouse
  | touch
  | pen
deriving DecidableEq, Repr

/-- JS `Map.prototype.has`. -/
def mapHas (pid : ℕ) (m : List (ℕ × ℚ × ℚ)) : Bool :=
  m.any (fun e => e.1 = pid)

/-- JS `Map.prototype.set`: update in place if present, else append. -/
def mapSet (pid : ℕ) (pos : ℚ × ℚ) (m : List (ℕ × ℚ × ℚ)) : List (ℕ × ℚ × ℚ) :=
  if mapHas pid m then
    m.map (fun e => if e.1 = pid then (pid, pos) else e)
  else m ++ [(pid, pos)]

/-- JS `Map.prototype.delete`. -/
def mapDelete (pid : ℕ) (m : List (ℕ × ℚ × ℚ)) : List (ℕ × ℚ × ℚ) :=
  m.filter (fun e => e.1 ≠ pid)

/-- The mutable refs of the component that the gesture handlers read and
write, as one state record. -/
structure GState where
  viewport : Viewport
  shouldAutoCenter : Bool
  pointers : List (ℕ × ℚ × ℚ)
  lastPinchDistSq : Option ℚ
  dragPointerId : Option ℕ
  lastDragPos : Option (ℚ × ℚ)
  lastTapTime : Option ℚ
  lastTapPos : Option (ℚ × ℚ)
deriving DecidableEq, Repr

/-- The double-tap guard of `handleTouchDoubleTapCheck`:
`lastTime && now - lastTime < TAP_THRESHOLD_MS && lastPos` followed by the
30-pixel radius test (truthiness of `lastTapTimeRef.current` excludes both
`null` and `0`; `dist < 30` is `distSq < 900`). -/
def isDoubleTapAt (now x y : ℚ) (s : GState) : Bool :=
  match s.lastTapTime, s.lastTapPos with
  | some t, some p =>
    t ≠ 0 && decide (now - t < 300) && decide (distSq p (x, y) < 900)
  | _, _ => false

/-- Model of `handleTouchDoubleTapCheck` (already specialised to a touch pointer):
returns whether the tap was consumed as a double tap, plus the new state. -/
def touchDoubleTapCheck (now x y : ℚ) (s : GState) : Bool × GState :=
  if isDoubleTapAt now x y s then
    (true, { s with viewport := zoomAtPoint DOUBLE_TAP_ZOOM x y s.viewport,
                    lastTapTime := none, lastTapPos := none })
  else
    (false, { s with lastTapTime := some now, lastTapPos := some (x, y) })

/-- The body of `handlePointerDown` after the pointer map update
(`pointersRef.current.set`): the length-dependent drag/pinch bookkeeping. -/
def pointerDownCore (pid : ℕ) (x y : ℚ) (s1 : GState) : GState :=
  if (mapSet pid (x, y) s1.pointers).length = 1 then
    { s1 with pointers := mapSet pid (x, y) s1.pointers,
              dragPointerId := some pid, lastDragPos := some (x, y),
              lastPinchDistSq := none }
  else if (mapSet pid (x, y) s1.pointers).length = 2 then
    match mapSet pid (x, y) s1.pointers with
    | p1 :: p2 :: _ =>
      { s1 with pointers := mapSet pid (x, y) s1.pointers,
                lastPinchDistSq := some (distSq p1.2 p2.2),
                dragPointerId := none, lastDragPos := none }
    | _ => { s1 with pointers := mapSet pid (x, y) s1.pointers }
  else { s1 with pointers := mapSet pid (x, y) s1.pointers }

/-- Model of `handlePointerDown`. -/
def handlePointerDown (ptype : PType) (now : ℚ) (pid : ℕ) (x y : ℚ)
    (s : GState) : GState :=
  let tap := if ptype = PType.touch then touchDoubleTapCheck now x y s else (false, s)
  if tap.1 then tap.2
  else pointerDownCore pid x y tap.2

/-- Truthiness of `lastPinchDistanceRef.current` (excludes `null` and `0`). -/
def pinchTruthy (s : GState) : Bool :=
  match s.lastPinchDistSq with
  | some d => d ≠ 0
  | none => false

/-- The body of `handlePointerMove` after the position update
(`pointersRef.current.set`): single-pointer drag panning or pinch zooming. -/
def pointerMoveCore (pinchFactor : ℚ → ℚ → ℚ) (pid : ℕ) (x y : ℚ)
    (s1 : GState) : GState :=
  if s1.pointers.length = 1 ∧ s1.dragPointerId = some pid ∧ s1.lastDragPos.isSome
  then
    match s1.lastDragPos with
    | some lp =>
      { s1 with
          lastDragPos := some (x, y)
          viewport := { s1.viewport with
                          panX := s1.viewport.panX + (x - lp.1) * PAN_SPEED,
                          panY := s1.viewport.panY + (y - lp.2) * PAN_SPEED }
          shouldAutoCenter := false }
    | none => s1
  else if 2 ≤ s1.pointers.length ∧ pinchTruthy s1 then
    match s1.pointers, s1.lastPinchDistSq with
    | p1 :: p2 :: _, some dPrevSq =>
      if distSq p1.2 p2.2 = 0 then s1
      else
        { s1 with
            viewport := zoomAtPoint (pinchFactor (distSq p1.2 p2.2) dPrevSq)
              ((p1.2.1 + p2.2.1) / 2) ((p1.2.2 + p2.2.2) / 2) s1.viewport
            lastPinchDistSq := some (distSq p1.2 p2.2)
            shouldAutoCenter := false }
    | _, _ => s1
  else s1

/-- Model of `handlePointerMove`, parameterised by the pinch-factor oracle. -/
def handlePointerMove (pinchFactor : ℚ → ℚ → ℚ) (pid : ℕ) (x y : ℚ)
    (s : GState) : GState :=
  if ¬ mapHas pid s.pointers then s
  else pointerMoveCore pinchFactor pid x y
    { s with pointers := mapSet pid (x, y) s.pointers }

/-- The count-dependent bookkeeping of `endPointer` after the deletion. -/
def endPointerCore (s1 : GState) : GState :=
  match s1.pointers with
  | [] =>
    { s1 with dragPointerId := none, lastPinchDistSq := none, lastDragPos := none }
  | [(rid, p)] =>
    { s1 with dragPointerId := some rid, lastPinchDistSq := none,
              lastDragPos := some p }
  | _ => s1

/-- Model of `endPointer` (shared by `handlePointerUp` and `handlePointerCancel`). -/
def endPointer (pid : ℕ) (s : GState) : GState :=
  endPointerCore { s with pointers := mapDelete pid s.pointers }

/-- Model of `handleDoubleClick` (mouse double click). -/
def handleDoubleClick (x y : ℚ) (s : GState) : GState :=
  { s with viewport := zoomAtPoint DOUBLE_TAP_ZOOM x y s.viewport }

/-- Model of `e.deltaY < 0 ? WHEEL_ZOOM_IN : WHEEL_ZOOM_OUT`. -/
def wheelFactor (deltaY : ℚ) : ℚ :=
  if deltaY < 0 then WHEEL_ZOOM_IN else WHEEL_ZOOM_OUT

/-- Model of `handleWheelNative`: unconditionally prevents the default scroll (first
component of the result), zooms at the cursor, and clears the pending
auto-center flag. -/
def handleWheelNative (deltaY cx cy : ℚ) (s : GState) : Bool × GState :=
  (true,
    { s with viewport := zoomAtPoint (wheelFactor deltaY) cx cy s.viewport,
             shouldAutoCenter := false })

/-- Model of `zoomToCenter`: zoom at the center of the canvas rect (rect origin is 0,
per the coordinate convention). -/
def zoomToCenter (factor rectW rectH : ℚ) (s : GState) : GState :=
  { s with viewport := zoomAtPoint factor (rectW / 2) (rectH / 2) s.viewport }

/-- Model of `handleZoomIn`. -/
def handleZoomIn (rectW rectH : ℚ) (s : GState) : GState :=
  zoomToCenter DOUBLE_TAP_ZOOM rectW rectH s

/-- Model of `handleZoomOut`. -/
def handleZoomOut (rectW rectH : ℚ) (s : GState) : GState :=
  zoomToCenter (1 / DOUBLE_TAP_ZOOM) rectW rectH s

/-- Raw pointer events (wheel and double-click are separate handlers). -/
inductive GEvent where
  | down (ptype : PType) (now : ℚ) (pid : ℕ) (x y : ℚ)
  | move (pid : ℕ) (x y : ℚ)
  | up (pid : ℕ)
  | cancel (pid : ℕ)
deriving DecidableEq, Repr

def gstep (pinchFactor : ℚ → ℚ → ℚ) (s : GState) : GEvent → GState
  | .down ptype now pid x y => handlePointerDown ptype now pid x y s
  | .move pid x y => handlePointerMove pinchFactor pid x y s
  | .up pid => endPointer pid s
  | .cancel pid => endPointer pid s

def runEvents (pinchFactor : ℚ → ℚ → ℚ) (s : GState) (es : List GEvent) : GState :=
  es.foldl (gstep pinchFactor) s

/-- The initial ref values of a freshly mounted component. -/
def initGState : GState :=
  { viewport := { zoom := 1, panX := 0, panY := 0 }
    shouldAutoCenter := false
    pointers := []
    lastPinchDistSq := none
    dragPointerId := none
    lastDragPos := none
    lastTapTime := none
    lastTapPos := none }

/-! ## View-mode state machine: auto fullscreen and auto-center -/

/-- Model of `seatKey = selectedSeatIds.join(",")`. -/
def seatKeyOf (sel : List ℤ) : String :=
  String.intercalate "," (sel.map toString)

/-- The view-mode-relevant state of the component: fullscreen flag, viewport,
the previous seat key, the pending auto-center flag, and the auto-fullscreen
provenance flag. -/
structure ViewerState where
  isFullscreen : Bool
  viewport : Viewport
  prevSeatKey : String
  shouldAutoCenter : Bool
  autoFullscreen : Bool
deriving DecidableEq, Repr

/-- The auto-fullscreen effect: when the capability is enabled and the seat
key is a new non-empty value, enter fullscreen with the auto flag set, reset
zoom to 1 and pan to (0, 0), and arm the one-shot auto-center flag. -/
def autoFullscreenEffect (enabled : Bool) (seatKey : String) (s : ViewerState) :
    ViewerState :=
  if ¬ enabled then s
  else if seatKey = "" then s
  else if seatKey ≠ s.prevSeatKey then
    { s with prevSeatKey := seatKey
             autoFullscreen := true
             isFullscreen := true
             viewport := { zoom := 1, panX := 0, panY := 0 }
             shouldAutoCenter := true }
  else s

/-- The auto-center effect: only in fullscreen, only while the pending flag
is armed, and only when a selection and nodes exist; finds the first matching
node and repositions the pan so that node lands at the surface center at the
current zoom, then clears the flag. -/
def autoCenterEffect (nodes : List VenueNode) (mode : Mode) (sel : List ℤ)
    (cssWidth cssHeight : ℚ) (s : ViewerState) : ViewerState :=
  if ¬ s.isFullscreen ∨ ¬ s.shouldAutoCenter ∨ sel.isEmpty ∨ nodes.isEmpty then s
  else
    match nodes.find? (isSeatNodeSelected mode sel) with
    | none => s
    | some target =>
      let bt := baseTransform nodes cssWidth cssHeight
      let seatCanvas := toCanvas bt target.x target.y
      { s with viewport := { s.viewport with
                               panX := cssWidth / 2 - seatCanvas.1 * s.viewport.zoom,
                               panY := cssHeight / 2 - seatCanvas.2 * s.viewport.zoom }
               shouldAutoCenter := false }

/-! ## Helper lemmas -/

lemma clampZoom_le_four (z : ℚ) : clampZoom z ≤ 4 := min_le_left _ _

lemma half_le_clampZoom (z : ℚ) : 1/2 ≤ clampZoom z :=
  le_min (by norm_num) (le_max_left _ _)

lemma clampZoom_of_four_le (z : ℚ) (h : 4 ≤ z) : clampZoom z = 4 := by
  unfold clampZoom
  rw [max_eq_right (by linarith), min_eq_left h]

lemma clampZoom_of_le_half (z : ℚ) (h : z ≤ 1/2) : clampZoom z = 1/2 := by
  unfold clampZoom
  rw [max_eq_left h, min_eq_right (by norm_num)]

lemma zoomAtPoint_of_actual_one (f x y : ℚ) (v : Viewport)
    (h : clampZoom (v.zoom * f) / v.zoom = 1) : zoomAtPoint f x y v = v := by
  unfold zoomAtPoint
  simp [h]

/-! ## C1: zoom-to-point invariant -/

/-- C1 — Zoom-to-point invariant: for every zoom factor `f` and canvas point
`(x, y)`, and every prior viewport with zoom in [0.5, 4.0], whenever the
clamped new zoom differs from the old zoom, the world coordinate
`(P - pan) / zoom` that mapped to `P` under the old viewport still maps to
`P` under the viewport produced by `zoomAtPoint` — exactly, over ℚ. -/
theorem zoomAtPoint_world_point_fixed (f x y : ℚ) (v : Viewport)
    (hlo : 1/2 ≤ v.zoom) (hne : clampZoom (v.zoom * f) ≠ v.zoom) :
    ((x - v.panX) / v.zoom) * (zoomAtPoint f x y v).zoom
        + (zoomAtPoint f x y v).panX = x ∧
    ((y - v.panY) / v.zoom) * (zoomAtPoint f x y v).zoom
        + (zoomAtPoint f x y v).panY = y := by
  have hz : v.zoom ≠ 0 := by
    have : (0 : ℚ) < v.zoom := by linarith
    exact ne_of_gt this
  have hfac : clampZoom (v.zoom * f) / v.zoom ≠ 1 := by
    intro h
    exact hne ((div_eq_one_iff_eq hz).mp h)
  unfold zoomAtPoint
  simp only [if_neg hfac]
  constructor <;> field_simp

/-- Witness for C1 at a concrete input: zoom 1, pan (3, 4), factor 2 at point
(100, 50). -/
theorem zoomAtPoint_world_point_fixed_witness :
    (1/2 ≤ (1 : ℚ) ∧ clampZoom (1 * 2) ≠ 1) ∧
    (((100 : ℚ) - 3) / 1) * (zoomAtPoint 2 100 50 ⟨1, 3, 4⟩).zoom
        + (zoomAtPoint 2 100 50 ⟨1, 3, 4⟩).panX = 100 ∧
    (((50 : ℚ) - 4) / 1) * (zoomAtPoint 2 100 50 ⟨1, 3, 4⟩).zoom
        + (zoomAtPoint 2 100 50 ⟨1, 3, 4⟩).panY = 50 :=
  ⟨⟨by norm_num, by norm_num [clampZoom, min_def, max_def]⟩,
    zoomAtPoint_world_point_fixed 2 100 50 ⟨1, 3, 4⟩ (by norm_num)
      (by norm_num [clampZoom, min_def, max_def])⟩

/-! ## C4: clamp behaviour -/

/-- C4 — Clamp behaviour: `zoomAtPoint` is total (it is a function; out-of-range
factors are clamped, never rejected), the resulting zoom always lies in
[0.5, 4.0] when the previous zoom did, and once the zoom is pinned at a bound,
any further zoom request past that bound computes an actual factor of 1 and
leaves the whole viewport (zoom and pan) exactly unchanged. -/
theorem zoomAtPoint_clamped_and_pinned (f x y : ℚ) (v : Viewport)
    (hlo : 1/2 ≤ v.zoom) (hhi : v.zoom ≤ 4) :
    (1/2 ≤ (zoomAtPoint f x y v).zoom ∧ (zoomAtPoint f x y v).zoom ≤ 4) ∧
    (v.zoom = 4 → 1 ≤ f →
      clampZoom (v.zoom * f) / v.zoom = 1 ∧ zoomAtPoint f x y v = v) ∧
    (v.zoom = 1/2 → f ≤ 1 →
      clampZoom (v.zoom * f) / v.zoom = 1 ∧ zoomAtPoint f x y v = v) := by
  refine ⟨?_, ?_, ?_⟩
  · unfold zoomAtPoint
    by_cases h : clampZoom (v.zoom * f) / v.zoom = 1
    · simp only [if_pos h]
      exact ⟨hlo, hhi⟩
    · simp only [if_neg h]
      exact ⟨half_le_clampZoom _, clampZoom_le_four _⟩
  · intro h4 hf
    have hc : clampZoom (v.zoom * f) = 4 := by
      apply clampZoom_of_four_le
      rw [h4]
      nlinarith
    have hone : clampZoom (v.zoom * f) / v.zoom = 1 := by
      rw [hc, h4]; norm_num
    exact ⟨hone, zoomAtPoint_of_actual_one f x y v hone⟩
  · intro hh hf
    have hc : clampZoom (v.zoom * f) = 1/2 := by
      apply clampZoom_of_le_half
      rw [hh]
      nlinarith
    have hone : clampZoom (v.zoom * f) / v.zoom = 1 := by
      rw [hc, hh]; norm_num
    exact ⟨hone, zoomAtPoint_of_actual_one f x y v hone⟩

/-- Witness for C4 at concrete inputs: a viewport pinned at zoom 4 with a
further zoom-in request by factor 3 stays exactly unchanged. -/
theorem zoomAtPoint_clamped_and_pinned_witness :
    ((1 : ℚ)/2 ≤ 4 ∧ (4 : ℚ) ≤ 4) ∧
    clampZoom ((4 : ℚ) * 3) / 4 = 1 ∧ zoomAtPoint 3 9 9 ⟨4, 7, 8⟩ = ⟨4, 7, 8⟩ :=
  ⟨⟨by norm_num, le_refl _⟩,
    (zoomAtPoint_clamped_and_pinned 3 9 9 ⟨4, 7, 8⟩ (by norm_num) (le_refl _)).2.1
      rfl (by norm_num)⟩

/-! ## C7: wheel zoom mapping (corrected) -/

/-- C7 counterexample — the claim says a wheel event with `deltaY > 0` invokes
`zoomAtPoint` with factor `1/1.08`; the source uses the constant
`WHEEL_ZOOM_OUT = 0.92`, and `0.92 ≠ 1/1.08` (= 25/27 ≈ 0.9259).  At
`deltaY = 1` from the initial viewport the code reaches zoom 0.92, not 25/27. -/
theorem wheel_out_factor_counterexample :
    wheelFactor 1 = 23/25 ∧ ((23 : ℚ)/25) ≠ 1 / (1.08 : ℚ) ∧
    (handleWheelNative 1 0 0 initGState).2.viewport.zoom = 23/25 := by
  refine ⟨by norm_num [wheelFactor, WHEEL_ZOOM_OUT], by norm_num, ?_⟩
  norm_num [handleWheelNative, wheelFactor, WHEEL_ZOOM_OUT, initGState,
    zoomAtPoint, clampZoom, min_def, max_def]

/-- C7 (amended) — Wheel zoom mapping: every wheel event with `deltaY < 0`
invokes `zoomAtPoint` with factor 1.08 at the cursor position, and every wheel
event with `deltaY > 0` invokes it with factor 0.92 (not `1/1.08`) at the
cursor position; the wheel default scrolling is always suppressed, and the
handler clears the pending auto-center flag. -/
theorem wheel_mapping (deltaY cx cy : ℚ) (s : GState) :
    (deltaY < 0 →
      (handleWheelNative deltaY cx cy s).2.viewport
        = zoomAtPoint (1.08 : ℚ) cx cy s.viewport) ∧
    (0 < deltaY →
      (handleWheelNative deltaY cx cy s).2.viewport
        = zoomAtPoint (0.92 : ℚ) cx cy s.viewport) ∧
    (handleWheelNative deltaY cx cy s).1 = true := by
  refine ⟨?_, ?_, rfl⟩
  · intro h
    simp only [handleWheelNative, wheelFactor, if_pos h, WHEEL_ZOOM_IN]
  · intro h
    have hn : ¬ deltaY < 0 := by linarith
    simp only [handleWheelNative, wheelFactor, if_neg hn, WHEEL_ZOOM_OUT]

/-- Witness for C7 (amended) at concrete inputs `deltaY = -1` and `deltaY = 1`. -/
theorem wheel_mapping_witness :
    (handleWheelNative (-1) 5 6 initGState).2.viewport
        = zoomAtPoint (1.08 : ℚ) 5 6 initGState.viewport ∧
    (handleWheelNative 1 5 6 initGState).2.viewport
        = zoomAtPoint (0.92 : ℚ) 5 6 initGState.viewport :=
  ⟨(wheel_mapping (-1) 5 6 initGState).1 (by norm_num),
    (wheel_mapping 1 5 6 initGState).2.1 (by norm_num)⟩

/-! ## C2 and C5: selection matching and not-found diagnostics -/

/-- The highlight predicate agrees with the spec-side formulation: a node is
selected iff its type is in the allowed set of the mode and the first digit
run of its label is the decimal representation of one of the requested ids. -/
lemma isSeatNodeSelected_iff (mode : Mode) (sel : List ℤ) (node : VenueNode) :
    isSeatNodeSelected mode sel node = true ↔
      node.type ∈ allowedTypes mode ∧
        ∃ i ∈ sel, firstDigitRun node.label = some (toString i) := by
  unfold isSeatNodeSelected
  cases hfd : firstDigitRun node.label with
  | none => simp
  | some t =>
    by_cases hm : t ∈ seatIdStrings sel
    · obtain ⟨i, hi, hti⟩ := List.mem_map.mp hm
      have hex : ∃ i ∈ sel, t = toString i := ⟨i, hi, hti.symm⟩
      cases mode <;> simp [hm, allowedTypes, hex]
    · simp [hm]
      intro _ x hx h
      exact hm (List.mem_map.mpr ⟨x, hx, h.symm⟩)

/-- The seat-validation filter predicate agrees with the same spec-side
formulation (the source phrases the type test via `allowedTypes.includes`
there, but the two predicates coincide). -/
lemma validationPred_iff (mode : Mode) (sel : List ℤ) (node : VenueNode) :
    validationPred mode sel node = true ↔
      node.type ∈ allowedTypes mode ∧
        ∃ i ∈ sel, firstDigitRun node.label = some (toString i) := by
  unfold validationPred
  by_cases hty : node.type ∈ allowedTypes mode
  · rw [if_neg (not_not_intro hty)]
    cases hfd : firstDigitRun node.label with
    | none => simp
    | some t =>
      simp only [decide_eq_true_eq, hty, true_and]
      constructor
      · intro hm
        obtain ⟨i, hi, hti⟩ := List.mem_map.mp hm
        exact ⟨i, hi, by rw [hti]⟩
      · rintro ⟨i, hi, h⟩
        injection h with h
        exact List.mem_map.mpr ⟨i, hi, h.symm⟩
  · rw [if_pos hty]
    simp [hty]

/-- C2 — Selection matching: for every node list entry, requested id set, and
mode, a node is highlighted iff its type is in the allowed set of the mode
(vip → {vip-table}, regular → {table}, admin → {table, vip-table}) and the
first digit run of its label denotes a member of the requested id set; in
particular, for the nodes `table "Table 5"` and `vip-table "VIP Table 5"` and
request `[5]`, vip mode matches exactly the vip-table, regular mode exactly
the table, and admin (unrestricted) mode both. -/
theorem selection_matching (mode : Mode) (sel : List ℤ) (node : VenueNode) :
    (isSeatNodeSelected mode sel node = true ↔
      node.type ∈ allowedTypes mode ∧
        ∃ i ∈ sel, firstDigitRun node.label = some (toString i)) ∧
    (isSeatNodeSelected .vip [5] ⟨"v", 0, 0, "vip-table", "VIP Table 5"⟩ = true ∧
     isSeatNodeSelected .vip [5] ⟨"t", 0, 0, "table", "Table 5"⟩ = false ∧
     isSeatNodeSelected .regular [5] ⟨"t", 0, 0, "table", "Table 5"⟩ = true ∧
     isSeatNodeSelected .regular [5] ⟨"v", 0, 0, "vip-table", "VIP Table 5"⟩ = false ∧
     isSeatNodeSelected .admin [5] ⟨"t", 0, 0, "table", "Table 5"⟩ = true ∧
     isSeatNodeSelected .admin [5] ⟨"v", 0, 0, "vip-table", "VIP Table 5"⟩ = true) :=
  ⟨isSeatNodeSelected_iff mode sel node, by decide⟩

/-- C5 — Not-found diagnostics: with a non-empty request and a non-empty node
list, if zero nodes match then the emitted condition is the singular,
mode-specific message naming the id when exactly one id was requested, and the
generic plural message when more than one was; if at least one node matches,
the condition is cleared to `none`. -/
theorem notfound_messaging (mode : Mode) (nodes : List VenueNode) (sel : List ℤ)
    (err : Option String) (hsel : sel ≠ []) (hnodes : nodes ≠ []) :
    ((¬ ∃ n ∈ nodes, n.type ∈ allowedTypes mode ∧
        ∃ i ∈ sel, firstDigitRun n.label = some (toString i)) →
      (sel.length = 1 →
        validateEffect mode nodes sel err = some (match mode with
          | .vip => "VIP table " ++ toString (sel.headD 0) ++ " not found"
          | .regular => "Table " ++ toString (sel.headD 0) ++ " not found"
          | .admin => "No VIP or regular table " ++ toString (sel.headD 0) ++ " found")) ∧
      (1 < sel.length →
        validateEffect mode nodes sel err
          = some "No matching tables found for selected seats")) ∧
    ((∃ n ∈ nodes, n.type ∈ allowedTypes mode ∧
        ∃ i ∈ sel, firstDigitRun n.label = some (toString i)) →
      validateEffect mode nodes sel err = none) := by
  have hselE : sel.isEmpty = false := by
    simpa [List.isEmpty_iff] using hsel
  have hnodesE : nodes.isEmpty = false := by
    simpa [List.isEmpty_iff] using hnodes
  constructor
  · intro hnomatch
    have hfilter : (nodes.filter (validationPred mode sel)).isEmpty = true := by
      simp only [List.isEmpty_iff, List.filter_eq_nil_iff]
      intro n hn hp
      exact hnomatch ⟨n, hn, (validationPred_iff mode sel n).mp hp⟩
    constructor
    · intro hone
      cases mode <;> simp [validateEffect, hselE, hnodesE, hfilter, hone]
    · intro hmore
      have hone : sel.length ≠ 1 := by omega
      simp [validateEffect, hselE, hnodesE, hfilter, hone]
  · rintro ⟨n, hn, hmatch⟩
    have hmemf : n ∈ nodes.filter (validationPred mode sel) :=
      List.mem_filter.mpr ⟨hn, (validationPred_iff mode sel n).mpr hmatch⟩
    have hfilter : (nodes.filter (validationPred mode sel)).isEmpty = false := by
      simpa [List.isEmpty_iff] using List.ne_nil_of_mem hmemf
    simp [validateEffect, hselE, hnodesE, hfilter]

/-- Witness for C5 at concrete inputs: request `[99]` in regular mode against
a layout holding only table 1 yields the singular message; request `[99, 100]`
yields the plural message; request `[1]` matches and clears the condition. -/
theorem notfound_messaging_witness :
    validateEffect .regular [⟨"t1", 0, 0, "table", "Table 1"⟩] [99]
        (some "old") = some "Table 99 not found" ∧
    validateEffect .regular [⟨"t1", 0, 0, "table", "Table 1"⟩] [99, 100]
        (some "old") = some "No matching tables found for selected seats" ∧
    validateEffect .regular [⟨"t1", 0, 0, "table", "Table 1"⟩] [1]
        (some "old") = none :=
  ⟨((notfound_messaging .regular [⟨"t1", 0, 0, "table", "Table 1"⟩] [99]
      (some "old") (by decide) (by decide)).1 (by decide)).1 (by decide),
   ((notfound_messaging .regular [⟨"t1", 0, 0, "table", "Table 1"⟩] [99, 100]
      (some "old") (by decide) (by decide)).1 (by decide)).2 (by decide),
   (notfound_messaging .regular [⟨"t1", 0, 0, "table", "Table 1"⟩] [1]
      (some "old") (by decide) (by decide)).2 (by decide)⟩

/-! ## C3: fit invariant -/

lemma foldl_min_le_init (xs : List ℚ) (init : ℚ) : xs.foldl min init ≤ init := by
  induction xs generalizing init with
  | nil => simp
  | cons x xs ih => exact le_trans (ih (min init x)) (min_le_left _ _)

lemma foldl_min_le_mem {xs : List ℚ} {a : ℚ} (init : ℚ) (h : a ∈ xs) :
    xs.foldl min init ≤ a := by
  induction xs generalizing init with
  | nil => cases h
  | cons x xs ih =>
    rcases List.mem_cons.mp h with rfl | h
    · exact le_trans (foldl_min_le_init xs _) (min_le_right _ _)
    · exact ih _ h

lemma init_le_foldl_max (xs : List ℚ) (init : ℚ) : init ≤ xs.foldl max init := by
  induction xs generalizing init with
  | nil => simp
  | cons x xs ih => exact le_trans (le_max_left _ _) (ih (max init x))

lemma mem_le_foldl_max {xs : List ℚ} {a : ℚ} (init : ℚ) (h : a ∈ xs) :
    a ≤ xs.foldl max init := by
  induction xs generalizing init with
  | nil => cases h
  | cons x xs ih =>
    rcases List.mem_cons.mp h with rfl | h
    · exact le_trans (le_max_right _ _) (init_le_foldl_max xs _)
    · exact ih _ h

lemma jsMin_le_of_mem {l : List ℚ} {a : ℚ} (h : a ∈ l) : jsMin l ≤ a := by
  cases l with
  | nil => cases h
  | cons x xs =>
    rcases List.mem_cons.mp h with rfl | h
    · exact foldl_min_le_init xs a
    · exact foldl_min_le_mem x h

lemma le_jsMax_of_mem {l : List ℚ} {a : ℚ} (h : a ∈ l) : a ≤ jsMax l := by
  cases l with
  | nil => cases h
  | cons x xs =>
    rcases List.mem_cons.mp h with rfl | h
    · exact init_le_foldl_max xs a
    · exact mem_le_foldl_max x h

/-- One axis of the fit computation: a content interval [m, M] expanded by the
40-unit margin, scaled by any positive `s` that fits it into the surface, and
centered, sends every point of [m, M] into [0, surf]. -/
lemma fit_axis (m M x surf s : ℚ) (hs : 0 < s)
    (hls : ((M + 40) - (m - 40)) * s ≤ surf) (h1 : m ≤ x) (h2 : x ≤ M) :
    0 ≤ (x - ((m - 40) - (surf / s - ((M + 40) - (m - 40))) / 2)) * s ∧
    (x - ((m - 40) - (surf / s - ((M + 40) - (m - 40))) / 2)) * s ≤ surf := by
  have hsne : s ≠ 0 := ne_of_gt hs
  have hdiv : surf / s * s = surf := div_mul_cancel₀ surf hsne
  have expand : (x - ((m - 40) - (surf / s - ((M + 40) - (m - 40))) / 2)) * s
      = (x - m + 40) * s + (surf / s * s - ((M + 40) - (m - 40)) * s) / 2 := by
    ring
  rw [expand, hdiv]
  constructor
  · nlinarith [mul_pos hs (show (0 : ℚ) < x - m + 40 by linarith)]
  · nlinarith [mul_le_mul_of_nonneg_right
      (show x - m + 40 ≤ (M + 40) - (m - 40) by linarith) (le_of_lt hs)]

/-- C3 — Fit invariant: for every non-empty node list and positive surface
size, at zoom 1 and pan (0, 0) the base transform maps every loaded node into
[0, cssWidth] × [0, cssHeight], regardless of the aspect ratios of venue and
surface. -/
theorem fit_invariant (nodes : List VenueNode) (cssWidth cssHeight : ℚ)
    (hn : nodes ≠ []) (hw : 0 < cssWidth) (hh : 0 < cssHeight) :
    ∀ node ∈ nodes,
      0 ≤ (screenPos ⟨1, 0, 0⟩
            (toCanvas (baseTransform nodes cssWidth cssHeight) node.x node.y)).1 ∧
      (screenPos ⟨1, 0, 0⟩
            (toCanvas (baseTransform nodes cssWidth cssHeight) node.x node.y)).1 ≤ cssWidth ∧
      0 ≤ (screenPos ⟨1, 0, 0⟩
            (toCanvas (baseTransform nodes cssWidth cssHeight) node.x node.y)).2 ∧
      (screenPos ⟨1, 0, 0⟩
            (toCanvas (baseTransform nodes cssWidth cssHeight) node.x node.y)).2 ≤ cssHeight := by
  intro node hmem
  have hxmem : node.x ∈ nodes.map (·.x) := List.mem_map_of_mem _ hmem
  have hymem : node.y ∈ nodes.map (·.y) := List.mem_map_of_mem _ hmem
  have hmx : jsMin (nodes.map (·.x)) ≤ node.x := jsMin_le_of_mem hxmem
  have hMx : node.x ≤ jsMax (nodes.map (·.x)) := le_jsMax_of_mem hxmem
  have hmy : jsMin (nodes.map (·.y)) ≤ node.y := jsMin_le_of_mem hymem
  have hMy : node.y ≤ jsMax (nodes.map (·.y)) := le_jsMax_of_mem hymem
  set m1 := jsMin (nodes.map (·.x)) with hm1
  set M1 := jsMax (nodes.map (·.x)) with hM1
  set m2 := jsMin (nodes.map (·.y)) with hm2
  set M2 := jsMax (nodes.map (·.y)) with hM2
  have hW : (0 : ℚ) < (M1 + 40) - (m1 - 40) := by linarith
  have hH : (0 : ℚ) < (M2 + 40) - (m2 - 40) := by linarith
  set s := min (cssWidth / ((M1 + 40) - (m1 - 40))) (cssHeight / ((M2 + 40) - (m2 - 40)))
    with hsdef
  have hs : 0 < s := lt_min (div_pos hw hW) (div_pos hh hH)
  have hWs : ((M1 + 40) - (m1 - 40)) * s ≤ cssWidth := by
    have h1 : s ≤ cssWidth / ((M1 + 40) - (m1 - 40)) := min_le_left _ _
    have := (le_div_iff₀ hW).mp h1
    linarith
  have hHs : ((M2 + 40) - (m2 - 40)) * s ≤ cssHeight := by
    have h1 : s ≤ cssHeight / ((M2 + 40) - (m2 - 40)) := min_le_right _ _
    have := (le_div_iff₀ hH).mp h1
    linarith
  have hx := fit_axis m1 M1 node.x cssWidth s hs hWs hmx hMx
  have hy := fit_axis m2 M2 node.y cssHeight s hs hHs hmy hMy
  simp only [baseTransform, toCanvas, screenPos, mul_one, add_zero, ← hm1, ← hM1,
    ← hm2, ← hM2, ← hsdef]
  exact ⟨hx.1, hx.2, hy.1, hy.2⟩

/-- Witness for C3 at concrete inputs: a wide two-node layout on a 1400 × 800
surface; both nodes land inside the surface. -/
theorem fit_invariant_witness :
    0 ≤ (screenPos ⟨1, 0, 0⟩
          (toCanvas (baseTransform
            [⟨"a", 0, 0, "table", "Table 1"⟩, ⟨"b", 1000, 50, "table", "Table 2"⟩]
            1400 800) (0 : ℚ) (0 : ℚ))).1 ∧
    (screenPos ⟨1, 0, 0⟩
          (toCanvas (baseTransform
            [⟨"a", 0, 0, "table", "Table 1"⟩, ⟨"b", 1000, 50, "table", "Table 2"⟩]
            1400 800) (0 : ℚ) (0 : ℚ))).1 ≤ 1400 ∧
    0 ≤ (screenPos ⟨1, 0, 0⟩
          (toCanvas (baseTransform
            [⟨"a", 0, 0, "table", "Table 1"⟩, ⟨"b", 1000, 50, "table", "Table 2"⟩]
            1400 800) (0 : ℚ) (0 : ℚ))).2 ∧
    (screenPos ⟨1, 0, 0⟩
          (toCanvas (baseTransform
            [⟨"a", 0, 0, "table", "Table 1"⟩, ⟨"b", 1000, 50, "table", "Table 2"⟩]
            1400 800) (0 : ℚ) (0 : ℚ))).2 ≤ 800 :=
  fit_invariant
    [⟨"a", 0, 0, "table", "Table 1"⟩, ⟨"b", 1000, 50, "table", "Table 2"⟩]
    1400 800 (by simp) (by norm_num) (by norm_num)
    ⟨"a", 0, 0, "table", "Table 1"⟩ (List.mem_cons_self _ _)

/-! ## C10: seat-id normalisation at the public interface -/

lemma mem_jsSetDedup (l : List ℤ) (x : ℤ) : x ∈ jsSetDedup l ↔ x ∈ l := by
  induction l with
  | nil => simp [jsSetDedup]
  | cons a l ih =>
    simp only [jsSetDedup, List.mem_cons, List.mem_filter, ih, decide_eq_true_eq]
    constructor
    · rintro (rfl | ⟨h, _⟩)
      · exact Or.inl rfl
      · exact Or.inr h
    · rintro (rfl | h)
      · exact Or.inl rfl
      · by_cases hxa : x = a
        · exact Or.inl hxa
        · exact Or.inr ⟨h, hxa⟩

lemma nodup_jsSetDedup (l : List ℤ) : (jsSetDedup l).Nodup := by
  induction l with
  | nil => simp [jsSetDedup]
  | cons a l ih =>
    simp only [jsSetDedup, List.nodup_cons]
    constructor
    · intro hmem
      have := (List.mem_filter.mp hmem).2
      simp at this
    · exact List.Nodup.filter _ ih

lemma jsSetDedup_sublist (l : List ℤ) : (jsSetDedup l).Sublist l := by
  induction l with
  | nil => simp [jsSetDedup]
  | cons a l ih =>
    simp only [jsSetDedup]
    exact List.Sublist.cons₂ a (List.Sublist.trans (List.filter_sublist _) ih)

/-- C10 — Seat-id normalisation: a present non-empty `seatIds` array takes
precedence and `seatId` is ignored; its non-number and `NaN` entries are
dropped, the remainder truncated toward zero and de-duplicated keeping first
occurrences (the result lists exactly the truncations of the numeric entries,
without duplicates, in a subsequence of the original order); with `seatIds`
absent or empty, a numeric non-`NaN` `seatId` yields its truncation as a
singleton and anything else yields the empty selection; and an empty
selection never produces a highlight nor touches the not-found condition. -/
theorem seat_id_normalisation :
    (∀ (l : List JSVal) (sid sid' : Option JSVal), l ≠ [] →
      selectedSeatIds (some l) sid = selectedSeatIds (some l) sid') ∧
    (∀ (l : List JSVal) (sid : Option JSVal) (x : ℤ), l ≠ [] →
      ((selectedSeatIds (some l) sid).Nodup ∧
        (selectedSeatIds (some l) sid).Sublist
          (l.filterMap fun v => match v with
            | .num q => some (jsTrunc q)
            | _ => none) ∧
        (x ∈ selectedSeatIds (some l) sid ↔
          ∃ q : ℚ, JSVal.num q ∈ l ∧ jsTrunc q = x))) ∧
    (∀ q : ℚ, selectedSeatIds none (some (.num q)) = [jsTrunc q] ∧
      selectedSeatIds (some []) (some (.num q)) = [jsTrunc q]) ∧
    (selectedSeatIds none none = [] ∧
      selectedSeatIds none (some .nan) = [] ∧
      selectedSeatIds none (some .other) = [] ∧
      selectedSeatIds (some []) (some .nan) = []) ∧
    (∀ (mode : Mode) (node : VenueNode), isSeatNodeSelected mode [] node = false) ∧
    (∀ (mode : Mode) (nodes : List VenueNode) (err : Option String),
      validateEffect mode nodes [] err = err) := by
  refine ⟨?_, ?_, ?_, ?_, ?_, ?_⟩
  · intro l sid sid' hl
    have hlen : 0 < l.length := List.length_pos.mpr hl
    simp [selectedSeatIds, hlen]
  · intro l sid x hl
    have hlen : 0 < l.length := List.length_pos.mpr hl
    refine ⟨?_, ?_, ?_⟩
    · simp only [selectedSeatIds, if_pos hlen]
      exact nodup_jsSetDedup _
    · simp only [selectedSeatIds, if_pos hlen]
      exact jsSetDedup_sublist _
    · simp only [selectedSeatIds, if_pos hlen, mem_jsSetDedup, List.mem_filterMap]
      constructor
      · rintro ⟨v, hv, hx⟩
        cases v with
        | num q =>
          injection hx with hx
          exact ⟨q, hv, hx⟩
        | nan => simp at hx
        | other => simp at hx
      · rintro ⟨q, hq, rfl⟩
        exact ⟨.num q, hq, rfl⟩
  · intro q
    exact ⟨rfl, rfl⟩
  · exact ⟨rfl, rfl, rfl, rfl⟩
  · intro mode node
    unfold isSeatNodeSelected
    cases firstDigitRun node.label with
    | none => rfl
    | some t => simp [seatIdStrings]
  · intro mode nodes err
    simp [validateEffect]

/-- Witness for C10 at a concrete input: `seatIds = [5.9, NaN, "x", 5, -2.7]`
(with a stray `seatId = 3` being ignored) normalises to `[5, -2]`. -/
theorem seat_id_normalisation_witness :
    selectedSeatIds
        (some [.num (59/10), .nan, .other, .num 5, .num (-27/10)])
        (some (.num 3))
      = selectedSeatIds
        (some [.num (59/10), .nan, .other, .num 5, .num (-27/10)]) none ∧
    (5 ∈ selectedSeatIds
        (some [.num (59/10), .nan, .other, .num 5, .num (-27/10)])
        (some (.num 3)) ↔
      ∃ q : ℚ, JSVal.num q ∈
          [JSVal.num (59/10), .nan, .other, .num 5, .num (-27/10)] ∧
        jsTrunc q = 5) :=
  ⟨seat_id_normalisation.1 [.num (59/10), .nan, .other, .num 5, .num (-27/10)]
      (some (.num 3)) none (by simp),
    (seat_id_normalisation.2.1 [.num (59/10), .nan, .other, .num 5, .num (-27/10)]
      (some (.num 3)) 5 (by simp)).2.2⟩

/-! ## C6: auto-fullscreen one-shot -/

/-- C6 — Auto-fullscreen one-shot: with the capability enabled, when the seat
key changes to a new non-empty value the effect enters fullscreen with the
auto flag set, force-resets zoom to 1 and pan to (0, 0), and arms the pending
auto-center flag; the auto-center effect then repositions the pan exactly once
(clearing the flag) so that the first matching node lands at the surface
center at the current zoom; running the auto-center effect again, or
re-issuing the identical seat key, leaves the state exactly unchanged. -/
theorem auto_fullscreen_one_shot (nodes : List VenueNode) (mode : Mode)
    (sel : List ℤ) (cssWidth cssHeight : ℚ) (s : ViewerState) (target : VenueNode)
    (hsel : sel ≠ [])
    (hkeyne : seatKeyOf sel ≠ "")
    (hnew : seatKeyOf sel ≠ s.prevSeatKey)
    (hfind : nodes.find? (isSeatNodeSelected mode sel) = some target) :
    ((autoFullscreenEffect true (seatKeyOf sel) s).isFullscreen = true ∧
     (autoFullscreenEffect true (seatKeyOf sel) s).autoFullscreen = true ∧
     (autoFullscreenEffect true (seatKeyOf sel) s).viewport = ⟨1, 0, 0⟩ ∧
     (autoFullscreenEffect true (seatKeyOf sel) s).shouldAutoCenter = true ∧
     (autoFullscreenEffect true (seatKeyOf sel) s).prevSeatKey = seatKeyOf sel) ∧
    ((autoCenterEffect nodes mode sel cssWidth cssHeight
        (autoFullscreenEffect true (seatKeyOf sel) s)).shouldAutoCenter = false ∧
     screenPos (autoCenterEffect nodes mode sel cssWidth cssHeight
        (autoFullscreenEffect true (seatKeyOf sel) s)).viewport
        (toCanvas (baseTransform nodes cssWidth cssHeight) target.x target.y)
       = (cssWidth / 2, cssHeight / 2)) ∧
    autoCenterEffect nodes mode sel cssWidth cssHeight
        (autoCenterEffect nodes mode sel cssWidth cssHeight
          (autoFullscreenEffect true (seatKeyOf sel) s))
      = autoCenterEffect nodes mode sel cssWidth cssHeight
          (autoFullscreenEffect true (seatKeyOf sel) s) ∧
    autoFullscreenEffect true (seatKeyOf sel)
        (autoCenterEffect nodes mode sel cssWidth cssHeight
          (autoFullscreenEffect true (seatKeyOf sel) s))
      = autoCenterEffect nodes mode sel cssWidth cssHeight
          (autoFullscreenEffect true (seatKeyOf sel) s) := by
  have hmem : target ∈ nodes := List.mem_of_find?_eq_some hfind
  have hnodes : nodes ≠ [] := List.ne_nil_of_mem hmem
  have hselE : sel.isEmpty = false := by simpa [List.isEmpty_iff] using hsel
  have hnodesE : nodes.isEmpty = false := by simpa [List.isEmpty_iff] using hnodes
  refine ⟨?_, ⟨?_, ?_⟩, ?_, ?_⟩
  · simp [autoFullscreenEffect, hkeyne, hnew]
  · simp [autoFullscreenEffect, autoCenterEffect, hkeyne, hnew, hselE, hnodesE, hfind]
  · simp only [autoFullscreenEffect, autoCenterEffect, hkeyne, hnew, hselE, hnodesE,
      hfind, screenPos]
    simp [hkeyne, hnew, hselE, hnodesE, hfind]
  · simp [autoFullscreenEffect, autoCenterEffect, hkeyne, hnew, hselE, hnodesE, hfind]
  · simp [autoFullscreenEffect, autoCenterEffect, hkeyne, hnew, hselE, hnodesE, hfind]

/-- Witness for C6 at concrete inputs: a single table-5 layout, request [5] in
regular mode from an embedded state with a non-default viewport. -/
theorem auto_fullscreen_one_shot_witness :
    (autoCenterEffect [⟨"t5", 7, 9, "table", "Table 5"⟩] .regular [5] 1400 800
        (autoFullscreenEffect true (seatKeyOf [5])
          ⟨false, ⟨2, 33, 44⟩, "", false, false⟩)).shouldAutoCenter = false ∧
    screenPos (autoCenterEffect [⟨"t5", 7, 9, "table", "Table 5"⟩] .regular [5] 1400 800
        (autoFullscreenEffect true (seatKeyOf [5])
          ⟨false, ⟨2, 33, 44⟩, "", false, false⟩)).viewport
        (toCanvas (baseTransform [⟨"t5", 7, 9, "table", "Table 5"⟩] 1400 800) 7 9)
      = (1400 / 2, 800 / 2) :=
  (auto_fullscreen_one_shot [⟨"t5", 7, 9, "table", "Table 5"⟩] .regular [5]
    1400 800 ⟨false, ⟨2, 33, 44⟩, "", false, false⟩ ⟨"t5", 7, 9, "table", "Table 5"⟩
    (by simp) (by decide) (by decide) (by decide)).2.1

/-! ## C8: pointer-session invariant -/

lemma mapSet_length (pid : ℕ) (pos : ℚ × ℚ) (m : List (ℕ × ℚ × ℚ)) :
    (mapSet pid pos m).length
      = if mapHas pid m then m.length else m.length + 1 := by
  unfold mapSet
  split <;> simp

lemma mapHas_length_pos {pid : ℕ} {m : List (ℕ × ℚ × ℚ)}
    (h : mapHas pid m = true) : 0 < m.length := by
  cases m with
  | nil => simp [mapHas] at h
  | cons a t => simp

lemma mapSet_length_pos (pid : ℕ) (pos : ℚ × ℚ) (m : List (ℕ × ℚ × ℚ)) :
    0 < (mapSet pid pos m).length := by
  rw [mapSet_length]
  split
  · rename_i h
    exact mapHas_length_pos h
  · omega

lemma mapHas_singleton {pid a : ℕ} {p : ℚ × ℚ} (h : mapHas pid [(a, p)] = true) :
    a = pid := by
  simpa [mapHas] using h

lemma mapSet_eq_singleton (pid : ℕ) (pos : ℚ × ℚ) (m : List (ℕ × ℚ × ℚ))
    (h : (mapSet pid pos m).length = 1) : mapSet pid pos m = [(pid, pos)] := by
  unfold mapSet at h ⊢
  by_cases hh : mapHas pid m
  · rw [if_pos hh] at h ⊢
    rw [List.length_map] at h
    cases m with
    | nil => simp at h
    | cons a t =>
      cases t with
      | nil =>
        have ha : a.1 = pid := by simpa [mapHas] using hh
        simp [ha]
      | cons b u => simp at h
  · rw [if_neg hh] at h ⊢
    have hm : m = [] := by
      cases m with
      | nil => rfl
      | cons a t =>
        simp only [List.length_append, List.length_cons] at h
        omega
    simp [hm]

/-- The pointer-session bookkeeping invariant, as a predicate over the four
gesture fields: no pointers means fully idle; exactly one tracked pointer
means that pointer owns the drag with its current stored position recorded
and no pinch distance; two or more tracked pointers mean no drag owner. -/
def sessionInvOn (P : List (ℕ × ℚ × ℚ)) (drag : Option ℕ) (pinch : Option ℚ)
    (ldp : Option (ℚ × ℚ)) : Prop :=
  (P.length = 0 → drag = none ∧ pinch = none ∧ ldp = none) ∧
  (∀ pid pos, P = [(pid, pos)] → drag = some pid ∧ pinch = none ∧ ldp = some pos) ∧
  (2 ≤ P.length → drag = none)

/-- The session invariant of a full gesture state. -/
def SessionInv (s : GState) : Prop :=
  sessionInvOn s.pointers s.dragPointerId s.lastPinchDistSq s.lastDragPos

lemma sessionInvOn_of_ge2 {P : List (ℕ × ℚ × ℚ)} {drag : Option ℕ}
    {pinch : Option ℚ} {ldp : Option (ℚ × ℚ)} (h2 : 2 ≤ P.length)
    (hd : drag = none) : sessionInvOn P drag pinch ldp := by
  refine ⟨?_, ?_, fun _ => hd⟩
  · intro h0
    omega
  · intro a q hEq
    rw [hEq] at h2
    simp at h2

lemma sessionInvOn_single {P : List (ℕ × ℚ × ℚ)} {pid : ℕ} {pos : ℚ × ℚ}
    (h : P = [(pid, pos)]) : sessionInvOn P (some pid) none (some pos) := by
  refine ⟨?_, ?_, ?_⟩
  · intro h0
    rw [h] at h0
    simp at h0
  · intro a q hEq
    rw [h] at hEq
    injection hEq with h1 _
    injection h1 with ha hq
    exact ⟨by rw [ha], rfl, by rw [hq]⟩
  · intro h2
    rw [h] at h2
    simp at h2

lemma sessionInv_of_fields_eq (s t : GState)
    (hp : t.pointers = s.pointers) (hd : t.dragPointerId = s.dragPointerId)
    (hq : t.lastPinchDistSq = s.lastPinchDistSq)
    (hl : t.lastDragPos = s.lastDragPos) (h : SessionInv s) : SessionInv t := by
  unfold SessionInv at h ⊢
  rw [hp, hd, hq, hl]
  exact h

lemma touchDoubleTapCheck_gesture_fields (now x y : ℚ) (s : GState) :
    (touchDoubleTapCheck now x y s).2.pointers = s.pointers ∧
    (touchDoubleTapCheck now x y s).2.dragPointerId = s.dragPointerId ∧
    (touchDoubleTapCheck now x y s).2.lastPinchDistSq = s.lastPinchDistSq ∧
    (touchDoubleTapCheck now x y s).2.lastDragPos = s.lastDragPos := by
  unfold touchDoubleTapCheck
  split <;> exact ⟨rfl, rfl, rfl, rfl⟩

lemma sessionInv_downCore (pid : ℕ) (x y : ℚ) (s1 : GState) (h : SessionInv s1) :
    SessionInv (pointerDownCore pid x y s1) := by
  unfold pointerDownCore
  split
  · rename_i h1
    exact sessionInvOn_single (mapSet_eq_singleton pid (x, y) s1.pointers h1)
  · rename_i h1
    split
    · rename_i h2
      split
      · rename_i p1 p2 rest hP
        exact sessionInvOn_of_ge2 (by rw [hP]; simp) rfl
      · rename_i hne
        exfalso
        cases hP : mapSet pid (x, y) s1.pointers with
        | nil => rw [hP] at h2; simp at h2
        | cons p1 t =>
          cases t with
          | nil => rw [hP] at h2; simp at h2
          | cons p2 u => exact hne p1 p2 u hP
    · rename_i h2
      have hge : 3 ≤ (mapSet pid (x, y) s1.pointers).length := by
        have := mapSet_length_pos pid (x, y) s1.pointers
        omega
      have hold : 2 ≤ s1.pointers.length := by
        have hlen := mapSet_length pid (x, y) s1.pointers
        by_cases hhas : mapHas pid s1.pointers
        · rw [if_pos hhas] at hlen
          omega
        · rw [if_neg hhas] at hlen
          omega
      exact sessionInvOn_of_ge2
        (show 2 ≤ (mapSet pid (x, y) s1.pointers).length by omega) (h.2.2 hold)

lemma sessionInv_down (ptype : PType) (now : ℚ) (pid : ℕ) (x y : ℚ) (s : GState)
    (h : SessionInv s) : SessionInv (handlePointerDown ptype now pid x y s) := by
  unfold handlePointerDown
  set tap := if ptype = PType.touch then touchDoubleTapCheck now x y s else (false, s)
    with htap
  have htf : tap.2.pointers = s.pointers ∧ tap.2.dragPointerId = s.dragPointerId ∧
      tap.2.lastPinchDistSq = s.lastPinchDistSq ∧ tap.2.lastDragPos = s.lastDragPos := by
    rw [htap]
    split
    · exact touchDoubleTapCheck_gesture_fields now x y s
    · exact ⟨rfl, rfl, rfl, rfl⟩
  have hinv1 : SessionInv tap.2 :=
    sessionInv_of_fields_eq _ _ htf.1 htf.2.1 htf.2.2.1 htf.2.2.2 h
  by_cases hc : tap.1
  · rw [if_pos hc]
    exact hinv1
  · rw [if_neg hc]
    exact sessionInv_downCore pid x y tap.2 hinv1

lemma sessionInv_moveCore (pf : ℚ → ℚ → ℚ) (pid : ℕ) (x y : ℚ) (s1 : GState)
    (hsingle : ∀ a q, s1.pointers = [(a, q)] →
      a = pid ∧ q = (x, y) ∧ s1.dragPointerId = some pid ∧
        s1.lastPinchDistSq = none ∧ s1.lastDragPos.isSome = true)
    (hge2 : 2 ≤ s1.pointers.length → s1.dragPointerId = none)
    (hpos : 0 < s1.pointers.length) :
    SessionInv (pointerMoveCore pf pid x y s1) := by
  unfold pointerMoveCore
  split
  · rename_i hdragB
    obtain ⟨e, hE⟩ := List.length_eq_one.mp hdragB.1
    obtain ⟨ha, hq, hdrag, hpinch, hsome⟩ := hsingle e.1 e.2 (by rw [hE])
    split
    · rename_i lp hlp
      show sessionInvOn s1.pointers s1.dragPointerId s1.lastPinchDistSq
        (some (x, y))
      rw [hdrag, hpinch]
      apply sessionInvOn_single
      rw [hE, ← ha, ← hq]
    · rename_i hlp
      exfalso
      rw [hlp] at hsome
      simp at hsome
  · rename_i hdragB
    split
    · rename_i hpinchB
      have hd : s1.dragPointerId = none := hge2 hpinchB.1
      split
      · split
        · exact sessionInvOn_of_ge2 hpinchB.1 hd
        · exact sessionInvOn_of_ge2 hpinchB.1 hd
      · exact sessionInvOn_of_ge2 hpinchB.1 hd
    · rename_i hpinchB
      have hcase : s1.pointers.length = 1 ∨ 2 ≤ s1.pointers.length := by omega
      rcases hcase with h1 | h2
      · exfalso
        obtain ⟨e, hE⟩ := List.length_eq_one.mp h1
        obtain ⟨ha, hq, hdrag, hpinch, hsome⟩ := hsingle e.1 e.2 (by rw [hE])
        exact hdragB ⟨h1, hdrag, hsome⟩
      · exact sessionInvOn_of_ge2 h2 (hge2 h2)

lemma sessionInv_move (pf : ℚ → ℚ → ℚ) (pid : ℕ) (x y : ℚ) (s : GState)
    (h : SessionInv s) : SessionInv (handlePointerMove pf pid x y s) := by
  unfold handlePointerMove
  by_cases hhas : mapHas pid s.pointers
  · rw [if_neg (not_not_intro hhas)]
    have hlen : (mapSet pid (x, y) s.pointers).length = s.pointers.length := by
      rw [mapSet_length, if_pos hhas]
    apply sessionInv_moveCore
    · intro a q hEq
      have hEq' : mapSet pid (x, y) s.pointers = [(a, q)] := hEq
      have h1 : (mapSet pid (x, y) s.pointers).length = 1 := by
        rw [hEq']
        rfl
      have hsing := mapSet_eq_singleton pid (x, y) s.pointers h1
      have hEq2 : ([(pid, (x, y))] : List (ℕ × ℚ × ℚ)) = [(a, q)] := by
        rw [← hsing, hEq']
      injection hEq2 with hh _
      injection hh with hha hhq
      have hold1 : s.pointers.length = 1 := by omega
      obtain ⟨e, hE⟩ := List.length_eq_one.mp hold1
      have hbpid : e.1 = pid :=
        mapHas_singleton (show mapHas pid [(e.1, e.2)] = true from hE ▸ hhas)
      have hown := h.2.1 e.1 e.2 (by rw [hE])
      refine ⟨hha.symm, hhq.symm, ?_, hown.2.1, ?_⟩
      · show s.dragPointerId = some pid
        rw [hown.1, hbpid]
      · show s.lastDragPos.isSome = true
        rw [hown.2.2]
        rfl
    · intro hge
      have hge' : 2 ≤ (mapSet pid (x, y) s.pointers).length := hge
      exact h.2.2 (by omega)
    · exact mapSet_length_pos pid (x, y) s.pointers
  · rw [if_pos hhas]
    exact h

lemma sessionInv_endCore (s1 : GState)
    (hge2 : 2 ≤ s1.pointers.length → s1.dragPointerId = none) :
    SessionInv (endPointerCore s1) := by
  unfold endPointerCore
  split
  · rename_i heq
    refine ⟨fun _ => ⟨rfl, rfl, rfl⟩, ?_, fun _ => rfl⟩
    intro a q hEq
    have hEq' : s1.pointers = [(a, q)] := hEq
    rw [heq] at hEq'
    simp at hEq'
  · rename_i rid p heq
    exact sessionInvOn_single heq
  · rename_i hne1 hne2
    have hge : 2 ≤ s1.pointers.length := by
      cases hP : s1.pointers with
      | nil => exact absurd hP hne1
      | cons a t =>
        cases t with
        | nil => exact absurd hP (hne2 a.1 a.2)
        | cons b u => simp
    exact sessionInvOn_of_ge2 hge (hge2 hge)

lemma sessionInv_end (pid : ℕ) (s : GState) (h : SessionInv s) :
    SessionInv (endPointer pid s) := by
  unfold endPointer
  apply sessionInv_endCore
  intro hge
  have hge' : 2 ≤ (mapDelete pid s.pointers).length := hge
  exact h.2.2 (le_trans hge' (List.length_filter_le _ _))

lemma sessionInv_step (pf : ℚ → ℚ → ℚ) (e : GEvent) (s : GState)
    (h : SessionInv s) : SessionInv (gstep pf s e) := by
  cases e with
  | down ptype now pid x y => exact sessionInv_down ptype now pid x y s h
  | move pid x y => exact sessionInv_move pf pid x y s h
  | up pid => exact sessionInv_end pid s h
  | cancel pid => exact sessionInv_end pid s h
lemma pointerDownCore_pointers (pid : ℕ) (x y : ℚ) (s1 : GState) :
    (pointerDownCore pid x y s1).pointers = mapSet pid (x, y) s1.pointers := by
  unfold pointerDownCore
  split
  · rfl
  · split
    · split <;> rfl
    · rfl

lemma endPointerCore_pointers (s1 : GState) :
    (endPointerCore s1).pointers = s1.pointers := by
  unfold endPointerCore
  split <;> rfl

lemma endPointerCore_of_ge2 (s1 : GState) (hge : 2 ≤ s1.pointers.length) :
    endPointerCore s1 = s1 := by
  unfold endPointerCore
  split
  · rename_i heq
    rw [heq] at hge
    simp at hge
  · rename_i rid p heq
    rw [heq] at hge
    simp at hge
  · rfl

/-- C8 counterexample — the claim says that after every pointer-up event that
leaves two pointers, the pinch distance is recorded from those two pointers.
Run: down A at (0, 0), down B at (3, 4), down C at (9, 12), up A.  Two
pointers remain (B at (3, 4) and C at (9, 12), squared distance 100 — i.e.
`Math.hypot` distance 10), but the stored pinch distance is still the one
recorded when B went down: squared distance 25 (`Math.hypot` distance 5),
because `endPointer` has no branch for two or more remaining pointers. -/
theorem pointer_session_counterexample :
    (runEvents (fun a b => a / b) initGState
        [.down .mouse 0 1 0 0, .down .mouse 0 2 3 4, .down .mouse 0 3 9 12,
          .up 1]).pointers = [(2, (3, 4)), (3, (9, 12))] ∧
    (runEvents (fun a b => a / b) initGState
        [.down .mouse 0 1 0 0, .down .mouse 0 2 3 4, .down .mouse 0 3 9 12,
          .up 1]).lastPinchDistSq = some (distSq (0, 0) (3, 4)) ∧
    distSq (0, 0) (3, 4) = 25 ∧ distSq (3, 4) (9, 12) = 100 ∧
    (25 : ℚ) ≠ 100 := by
  refine ⟨?_, ?_, ?_, ?_, by norm_num⟩
  · rfl
  · rfl
  · norm_num [distSq]
  · norm_num [distSq]

/-- C8 (amended) — PointerSession invariant: drag ownership and pinch tracking
are mutually exclusive and follow the pointer count (0 pointers: idle;
1 pointer: that pointer owns the drag with its current position recorded and
no pinch distance; 2 or more: no drag owner), and this invariant holds
initially and is preserved by every pointer-down, pointer-move, pointer-up,
and pointer-cancel event; a pointer-down reaching exactly two pointers records
the pinch distance from those two pointers and releases drag ownership;
however a pointer-up that leaves two or more pointers changes none of the
drag/pinch bookkeeping — in particular the pinch distance is NOT re-recorded
from the remaining two pointers (it is refreshed only by the next pinch
move). -/
theorem pointer_session_invariant (pf : ℚ → ℚ → ℚ) (e : GEvent) (s : GState)
    (hinv : SessionInv s) :
    SessionInv (gstep pf s e) ∧
    SessionInv initGState ∧
    (∀ (now : ℚ) (pid : ℕ) (x y : ℚ) (p1 p2 : ℕ × ℚ × ℚ),
      (handlePointerDown .mouse now pid x y s).pointers = [p1, p2] →
      (handlePointerDown .mouse now pid x y s).lastPinchDistSq
          = some (distSq p1.2 p2.2) ∧
        (handlePointerDown .mouse now pid x y s).dragPointerId = none) ∧
    (∀ pid : ℕ, 2 ≤ (endPointer pid s).pointers.length →
      (endPointer pid s).lastPinchDistSq = s.lastPinchDistSq ∧
      (endPointer pid s).dragPointerId = s.dragPointerId ∧
      (endPointer pid s).lastDragPos = s.lastDragPos) := by
  refine ⟨sessionInv_step pf e s hinv, ?_, ?_, ?_⟩
  · refine ⟨fun _ => ⟨rfl, rfl, rfl⟩, ?_, ?_⟩
    · intro pid pos hEq
      simp [initGState] at hEq
    · intro hge
      simp [initGState] at hge
  · intro now pid x y p1 p2 hEq
    have hred : handlePointerDown .mouse now pid x y s = pointerDownCore pid x y s :=
      rfl
    rw [hred] at hEq ⊢
    have hm : mapSet pid (x, y) s.pointers = [p1, p2] := by
      rw [← pointerDownCore_pointers pid x y s]
      exact hEq
    have h1 : ¬ (mapSet pid (x, y) s.pointers).length = 1 := by
      rw [hm]
      simp
    have h2 : (mapSet pid (x, y) s.pointers).length = 2 := by
      rw [hm]
      rfl
    unfold pointerDownCore
    rw [if_neg h1, if_pos h2, hm]
    exact ⟨rfl, rfl⟩
  · intro pid hge
    have hge' : 2 ≤ (mapDelete pid s.pointers).length := by
      have hptr : (endPointer pid s).pointers = mapDelete pid s.pointers :=
        endPointerCore_pointers _
      rw [hptr] at hge
      exact hge
    rw [show endPointer pid s = { s with pointers := mapDelete pid s.pointers }
      from endPointerCore_of_ge2 _ hge']
    exact ⟨rfl, rfl, rfl⟩

/-- Witness for C8 (amended): the invariant holds after a concrete
pointer-down from the initial state. -/
theorem pointer_session_invariant_witness :
    SessionInv (gstep (fun a b => a / b) initGState (.down .mouse 0 1 2 3)) :=
  (pointer_session_invariant (fun a b => a / b) (.down .mouse 0 1 2 3)
      initGState
      (by
        refine ⟨fun _ => ⟨rfl, rfl, rfl⟩, ?_, ?_⟩
        · intro pid pos hEq
          simp [initGState] at hEq
        · intro hge
          simp [initGState] at hge)).1

/-! ## C9: auto-center preemption (corrected) -/

/-- C9 counterexample — the claim says every manual zoom operation (including
double-tap zoom) clears the pending auto-center flag.  A double tap at
(10, 10) with the flag armed performs the zoom (zoom changes from 1 to 1.15),
yet `handleTouchDoubleTapCheck` never clears the flag: it remains `true`. -/
theorem auto_center_preemption_counterexample :
    (handlePointerDown .touch 100 1 10 10
        { initGState with shouldAutoCenter := true, lastTapTime := some 1, lastTapPos := some (10, 10) }).shouldAutoCenter = true ∧
    (handlePointerDown .touch 100 1 10 10
        { initGState with shouldAutoCenter := true, lastTapTime := some 1, lastTapPos := some (10, 10) }).viewport.zoom ≠ 1 := by
  constructor
  · norm_num [handlePointerDown, touchDoubleTapCheck, isDoubleTapAt, distSq,
      initGState]
  · norm_num [handlePointerDown, touchDoubleTapCheck, isDoubleTapAt, distSq,
      initGState, DOUBLE_TAP_ZOOM, zoomAtPoint, clampZoom, min_def, max_def]

/-- C9 (amended) — Auto-center preemption: a single-pointer drag move, a pinch
move, and a wheel zoom each clear the pending one-shot auto-center flag; but a
double-tap zoom, a double-click zoom, and the zoom-button zooms leave the flag
unchanged (so an armed auto-center can still fire after those zooms). -/
theorem auto_center_preemption (pf : ℚ → ℚ → ℚ) (pid : ℕ)
    (x y now deltaY cx cy rectW rectH : ℚ) (s : GState) :
    ((handleWheelNative deltaY cx cy s).2.shouldAutoCenter = false) ∧
    (∀ s1 : GState, s1.pointers.length = 1 → s1.dragPointerId = some pid →
      ∀ lp, s1.lastDragPos = some lp →
      (pointerMoveCore pf pid x y s1).shouldAutoCenter = false) ∧
    (∀ s1 : GState, 2 ≤ s1.pointers.length →
      ∀ d, s1.lastPinchDistSq = some d → d ≠ 0 →
      ∀ p1 p2 rest, s1.pointers = p1 :: p2 :: rest → distSq p1.2 p2.2 ≠ 0 →
      (pointerMoveCore pf pid x y s1).shouldAutoCenter = false) ∧
    ((touchDoubleTapCheck now x y s).2.shouldAutoCenter = s.shouldAutoCenter) ∧
    ((handleDoubleClick x y s).shouldAutoCenter = s.shouldAutoCenter) ∧
    ((handleZoomIn rectW rectH s).shouldAutoCenter = s.shouldAutoCenter) ∧
    ((handleZoomOut rectW rectH s).shouldAutoCenter = s.shouldAutoCenter) := by
  refine ⟨rfl, ?_, ?_, ?_, rfl, rfl, rfl⟩
  · intro s1 h1 h2 lp hlp
    unfold pointerMoveCore
    rw [if_pos ⟨h1, h2, by rw [hlp]; rfl⟩, hlp]
  · intro s1 hge d hd hdne p1 p2 rest hP hdist
    unfold pointerMoveCore
    have hcond1 : ¬ (s1.pointers.length = 1 ∧ s1.dragPointerId = some pid ∧
        s1.lastDragPos.isSome = true) := by
      rintro ⟨hh, -, -⟩
      omega
    have hcond2 : pinchTruthy s1 = true := by
      simp [pinchTruthy, hd, hdne]
    rw [if_neg hcond1, if_pos ⟨hge, hcond2⟩, hP, hd]
    simp only [if_neg hdist]
  · unfold touchDoubleTapCheck
    split <;> rfl

/-- Witness for C9 (amended): a concrete drag move (single pointer 1 at
(0, 0) dragging to (5, 5)) clears an armed auto-center flag. -/
theorem auto_center_preemption_witness :
    (pointerMoveCore (fun a b => a / b) 1 5 5
        { initGState with shouldAutoCenter := true, pointers := [(1, (5, 5))], dragPointerId := some 1, lastDragPos := some (0, 0) }).shouldAutoCenter = false :=
  (auto_center_preemption (fun a b => a / b) 1 5 5 0 0 0 0 0 0
      initGState).2.1
    { initGState with shouldAutoCenter := true, pointers := [(1, (5, 5))], dragPointerId := some 1, lastDragPos := some (0, 0) }
    rfl rfl (0, 0) rfl

end SeatingTracker
